import Mathlib

/-!
Verification of the EterPix VRC uploader core (Python) against its
natural-language specification.  The Python source is embedded shallowly:
pure functions become Lean functions, the mutable object state of each
component becomes an explicit state record threaded through the operations,
network calls are abstracted by a boolean environment that fixes the outcome
of each remote operation (true = transport success with a response whose
status field is not the string error; false = transport error or a response
whose status field is error -- the two cases produce identical state effects
in the source and are therefore merged), and fallible code returns Except.
-/

/-! ## Control channel, dual-address variant (src/core/osc_handler.py) -/

namespace OSC

/-- Outbound mapping from a visibility string to the OSC code sent to the
peer, `VISIBILITY_TO_OSC` in src/core/osc_handler.py lines 18-24.  The
lookup failure is handled at the call site with the default 101, matching
the Python `VISIBILITY_TO_OSC.get(visibility, 101)`. -/
def VISIBILITY_TO_OSC (v : String) : Option Int :=
  if v = "self" then some 101
  else if v = "friends" then some 102
  else if v = "instance_friends" then some 103
  else if v = "instance" then some 104
  else if v = "public" then some 105
  else none

/-- Inbound mapping `OSC_TO_VISIBILITY` of src/core/osc_handler.py lines
26-32: inbound codes 1-5 map to the five visibility strings, every other
code is absent from the dictionary. -/
def OSC_TO_VISIBILITY (v : Int) : Option String :=
  if v = 1 then some "self"
  else if v = 2 then some "friends"
  else if v = 3 then some "instance_friends"
  else if v = 4 then some "instance"
  else if v = 5 then some "public"
  else none

/-- State of an `OSCHandler` object: the `_running` flag, whether the UDP
send client object `_client` is present, `_current_visibility`,
`_last_recv_value`, plus two observation logs: the values passed to
`send_message` on the outbound address (in order) and the arguments passed
to the registered visibility-changed callback (in order).  The logs model
the externally visible side effects; a swallowed transport error does not
remove an attempted send from the log, matching the source where the
exception is only printed. -/
structure OSCState where
  running : Bool
  hasClient : Bool
  current_visibility : String
  last_recv_value : Int
  sentValues : List Int
  callbackCalls : List String
deriving DecidableEq, Repr

/-- Model of `OSCHandler.send_visibility` (lines 134-146): if no client is present
return unchanged; otherwise compute the wire code with fallback 101, set
`_current_visibility` to the argument, and attempt the send (errors
swallowed). -/
def send_visibility (visibility : String) (st : OSCState) : OSCState :=
  if ¬ st.hasClient then st
  else
    let osc_value := (VISIBILITY_TO_OSC visibility).getD 101
    { st with
      current_visibility := visibility
      sentValues := st.sentValues ++ [osc_value] }

/-- Model of `OSCHandler._handle_recv` (lines 159-177): record the received value in
`_last_recv_value` unconditionally, then, if the value is a key of
`OSC_TO_VISIBILITY` and decodes to a visibility different from the current
one, update the current visibility, invoke the registered callback, and
echo the new value back via `send_visibility`.  The callback is modelled as
registered (the application installs one in `VRCUploaderApp.__init__`). -/
def handle_recv (value : Int) (st : OSCState) : OSCState :=
  let st1 := { st with last_recv_value := value }
  match OSC_TO_VISIBILITY value with
  | none => st1
  | some nv =>
    if nv ≠ st1.current_visibility then
      send_visibility nv
        { st1 with
          current_visibility := nv
          callbackCalls := st1.callbackCalls ++ [nv] }
    else st1

/-- A concrete handler state used to exhibit the C9 counterexample: channel
started, client present, current visibility self, last received value 0. -/
def c9state : OSCState :=
  { running := true
    hasClient := true
    current_visibility := "self"
    last_recv_value := 0
    sentValues := []
    callbackCalls := [] }

end OSC

/-! ## Control channel, single-address variant (modelled from the spec) -/

namespace OSCSingle

/-- Modelled from the spec: the single-address control-channel variant of
spec section 4.4 is not present under src/ (the source tree implements only
the dual-address variant of src/core/osc_handler.py), so its inbound code
mapping is modelled from the spec's words: codes 2-6 map 1:1 to the
visibility enum in enum order (self, friends, instance_friends, instance,
public). -/
def codeToVisibility (v : Int) : Option String :=
  if v = 2 then some "self"
  else if v = 3 then some "friends"
  else if v = 4 then some "instance_friends"
  else if v = 5 then some "instance"
  else if v = 6 then some "public"
  else none

/-- Modelled from the spec: the outbound direction of the same 1:1 mapping
for the single-address variant; an unknown visibility value falls back to
the code for self (spec section 3: unknown values fall back to self when
transmitted). -/
def visibilityToCode (s : String) : Int :=
  if s = "self" then 2
  else if s = "friends" then 3
  else if s = "instance_friends" then 4
  else if s = "instance" then 5
  else if s = "public" then 6
  else 2

/-- State of the single-address channel: the mirrored visibility value plus
the logs of sent codes and callback invocations. -/
structure ChannelState where
  current_visibility : String
  sentValues : List Int
  callbackCalls : List String
deriving DecidableEq, Repr

/-- Modelled from the spec: receive handling of the single-address variant
(spec section 4.4): code 0 is ignored; code 1 retransmits the current value
without changing state or invoking the callback; codes 2-6 decode to a
visibility and, when it differs from the current one, update the state,
invoke the callback and echo the new value back; a code decoding to the
current visibility is a no-op; codes outside 0..6 are ignored. -/
def handle_recv (value : Int) (st : ChannelState) : ChannelState :=
  if value = 1 then
    { st with sentValues := st.sentValues ++ [visibilityToCode st.current_visibility] }
  else
    match codeToVisibility value with
    | none => st
    | some nv =>
      if nv ≠ st.current_visibility then
        { st with
          current_visibility := nv
          callbackCalls := st.callbackCalls ++ [nv]
          sentValues := st.sentValues ++ [visibilityToCode nv] }
      else st

end OSCSingle

/-! ## Theorems for claims C6, C9, C10 -/

/-- C9 counterexample: the claim says that on receipt of an inbound code
outside 1-5 every field of the control-channel state is unchanged; but
`_handle_recv` stores the received value into `_last_recv_value` before the
range check, so receiving 7 in a state whose last received value is 0
changes that field. -/
theorem c9_counterexample :
    (OSC.handle_recv 7 OSC.c9state).last_recv_value ≠ OSC.c9state.last_recv_value := by
  decide

/-- C9 amended: receipt of an inbound code outside 1-5 in the dual-address
variant leaves `current_visibility`, `running` and the client unchanged,
invokes no callback and sends nothing to the peer, but it does update
`lastReceivedCode` to the received code. -/
theorem c9_amended (value : Int) (st : OSC.OSCState)
    (h : OSC.OSC_TO_VISIBILITY value = none) :
    OSC.handle_recv value st = { st with last_recv_value := value } := by
  unfold OSC.handle_recv
  rw [h]

/-- C9 witness: the amended theorem applied at code 7 and the concrete
state `c9state`. -/
theorem c9_witness :
    OSC.handle_recv 7 OSC.c9state = { OSC.c9state with last_recv_value := 7 } :=
  c9_amended 7 OSC.c9state (by decide)

/-- C10: for every string v, `send_visibility v` on a channel whose send
client is present sets `current_visibility` to exactly v, even when v is
not one of the five enum values, and when v is unknown the transmitted wire
code falls back to 101. -/
theorem c10_send_visibility (v : String) (st : OSC.OSCState)
    (h : st.hasClient = true) :
    (OSC.send_visibility v st).current_visibility = v ∧
      (OSC.VISIBILITY_TO_OSC v = none →
        (OSC.send_visibility v st).sentValues = st.sentValues ++ [101]) := by
  unfold OSC.send_visibility
  rw [h]
  refine ⟨rfl, fun hn => ?_⟩
  simp [hn]

/-- C10 witness: the theorem applied to the non-enum string "weird" and a
started channel state; the current visibility becomes that very string and
the wire code sent is the fallback 101. -/
theorem c10_witness :
    (OSC.send_visibility "weird" OSC.c9state).current_visibility = "weird" ∧
      (OSC.VISIBILITY_TO_OSC "weird" = none →
        (OSC.send_visibility "weird" OSC.c9state).sentValues =
          OSC.c9state.sentValues ++ [101]) :=
  c10_send_visibility "weird" OSC.c9state rfl

/-- C6: in the single-address control-channel variant (modelled from the
spec, since only the dual-address variant is in src/), the inbound codes
2-6 map 1:1 to the five visibility values in enum order, and after the
channel receives code 6 the current visibility reads public, from every
prior channel state. -/
theorem c6_single_address :
    (OSCSingle.codeToVisibility 2 = some "self" ∧
     OSCSingle.codeToVisibility 3 = some "friends" ∧
     OSCSingle.codeToVisibility 4 = some "instance_friends" ∧
     OSCSingle.codeToVisibility 5 = some "instance" ∧
     OSCSingle.codeToVisibility 6 = some "public") ∧
    (∀ st : OSCSingle.ChannelState,
      (OSCSingle.handle_recv 6 st).current_visibility = "public") := by
  refine ⟨⟨rfl, rfl, rfl, rfl, rfl⟩, fun st => ?_⟩
  unfold OSCSingle.handle_recv
  simp only [OSCSingle.codeToVisibility]
  norm_num
  split <;> simp_all

/-! ## Sync controller (src/main.py, class VRCUploaderApp) -/

namespace Sync

/-- Byte strings, modelled as lists of naturals. -/
abbrev Bytes := List Nat

/-- A queued world-join record as handed to the uploader during a drain
(class QueuedWorldJoin of src/core/offline_queue.py, seen through
`get_queued_world_joins`). -/
structure WorldJoinRec where
  id : String
  world_id : String
  instance_id : String
  vrc_user_id : Option String
  vrc_display_name : Option String
deriving DecidableEq, Repr

/-- A queued photo record as handed to the uploader during a drain (class
QueuedPhoto of src/core/offline_queue.py, seen through
`get_queued_photos`); the binary payload is carried alongside. -/
structure PhotoRec where
  id : String
  filename : String
  world_id : Option String
  instance_id : Option String
  visibility : String
  camera_data : Option String
deriving DecidableEq, Repr

/-- One remote-call attempt made by the sync controller: either
`uploader.report_instance_join` on a world-join or `uploader.upload_photo`
on a photo. -/
inductive Attempt
  | world (w : WorldJoinRec)
  | photo (p : PhotoRec) (b : Bytes)
deriving DecidableEq, Repr

/-- A coroutine placed on the controller's `_task_queue` by
`_schedule_task`; the model only needs the drain attempts scheduled by
`_queue_photo` (a `try_send_queue()` coroutine). -/
inductive TaskKind
  | trySendQueue
deriving DecidableEq, Repr

/-- State of `VRCUploaderApp` relevant to the sync-controller claims: the
`_is_offline` flag, the two persistent queues of the offline queue manager
in FIFO (ledger) order, plus observation logs: every remote-call attempt in
order, every successful queue-item send (the queue_item_sent
notifications), and the scheduled drain tasks. -/
structure SyncState where
  isOffline : Bool
  worlds : List WorldJoinRec
  photos : List (PhotoRec × Bytes)
  attempts : List Attempt
  sent : List Attempt
  tasks : List TaskKind
deriving DecidableEq, Repr

/-- Environment fixing the outcome of each remote operation during one
controller operation: whether `uploader.token` is set, whether
`config.auto_upload` is enabled, the result of `uploader.health_check()`,
and the outcome of each upload/report call (true means transport success
with a status field other than error; false merges the transport-error and
embedded-error cases, which produce identical state effects in the
source).  Responses of successful calls are assumed structurally
well-formed (a mapping whose data field, when read, is a mapping). -/
structure Env where
  hasToken : Bool
  autoUpload : Bool
  alive : Bool
  joinOk : WorldJoinRec → Bool
  uploadOk : PhotoRec → Bytes → Bool

/-- Model of `VRCUploaderApp._set_offline` (lines 201-205): the `_is_offline` flag
becomes true (the guard only avoids a duplicate notification). -/
def set_offline (s : SyncState) : SyncState := { s with isOffline := true }

/-- Model of `VRCUploaderApp._set_online` (lines 207-211): the `_is_offline` flag
becomes false. -/
def set_online (s : SyncState) : SyncState := { s with isOffline := false }

/-- Model of `VRCUploaderApp._queue_photo` (lines 182-199): append the photo to the
offline photo queue, then schedule an immediate `try_send_queue()` drain
attempt on the task queue. -/
def queue_photo (p : PhotoRec) (b : Bytes) (s : SyncState) : SyncState :=
  { s with
    photos := s.photos ++ [(p, b)]
    tasks := s.tasks ++ [TaskKind.trySendQueue] }

/-- Model of `VRCUploaderApp._queue_world_join` (lines 248-260): append the
world-join to the offline world queue and notify; no drain task is
scheduled by this method. -/
def queue_world_join (w : WorldJoinRec) (s : SyncState) : SyncState :=
  { s with worlds := s.worlds ++ [w] }

/-- The world-join phase of `VRCUploaderApp._process_offline_queue` (lines
437-460): iterate over the snapshot returned by
`get_queued_world_joins()`; each element is attempted; on success it is
removed from the queue by id (`remove_world_join`) and logged as sent; on
the first failure the controller goes offline and the drain stops,
returning false. -/
def drainWorlds (env : Env) : List WorldJoinRec → SyncState → SyncState × Bool
  | [], s => (s, true)
  | w :: rest, s =>
    let s1 := { s with attempts := s.attempts ++ [Attempt.world w] }
    if env.joinOk w then
      drainWorlds env rest
        { s1 with
          worlds := s1.worlds.filter (fun x => x.id != w.id)
          sent := s1.sent ++ [Attempt.world w] }
    else (set_offline s1, false)

/-- The photo phase of `VRCUploaderApp._process_offline_queue` (lines
462-488): same shape as the world-join phase over the snapshot returned by
`get_queued_photos()`, with removal by `remove_photo`. -/
def drainPhotos (env : Env) : List (PhotoRec × Bytes) → SyncState → SyncState × Bool
  | [], s => (s, true)
  | (p, b) :: rest, s =>
    let s1 := { s with attempts := s.attempts ++ [Attempt.photo p b] }
    if env.uploadOk p b then
      drainPhotos env rest
        { s1 with
          photos := s1.photos.filter (fun x => x.1.id != p.id)
          sent := s1.sent ++ [Attempt.photo p b] }
    else (set_offline s1, false)

/-- Model of `VRCUploaderApp._process_offline_queue` (lines 432-495): return
unchanged without a token; otherwise drain the world-join snapshot first
and, only if that phase completed, the photo snapshot taken afterwards. -/
def process_offline_queue (env : Env) (s : SyncState) : SyncState :=
  if ¬ env.hasToken then s
  else
    let r1 := drainWorlds env s.worlds s
    if ¬ r1.2 then r1.1
    else (drainPhotos env r1.1.photos r1.1).1

/-- Model of `VRCUploaderApp.check_server_health` (lines 360-383): without a token
do nothing; if the probe succeeds and the controller was offline, go online
and drain; if the probe fails, go offline.  `uploader.health_check` never
raises (it returns False on any exception), so the except branch is dead
for the probe itself. -/
def check_server_health (env : Env) (s : SyncState) : SyncState :=
  if ¬ env.hasToken then s
  else if env.alive then
    if s.isOffline then process_offline_queue env (set_online s) else s
  else set_offline s

/-- Model of `VRCUploaderApp.try_send_queue` (lines 385-402): without a token or
with both queues empty do nothing; otherwise probe; on a live probe go
online and drain; on a dead probe return with the state unchanged. -/
def try_send_queue (env : Env) (s : SyncState) : SyncState :=
  if ¬ env.hasToken then s
  else if s.photos = [] ∧ s.worlds = [] then s
  else if env.alive then process_offline_queue env (set_online s) else s

/-- Model of `VRCUploaderApp.force_resend` (lines 404-430): same state effects as
`try_send_queue` (the two differ only in the status notifications and the
returned boolean). -/
def force_resend (env : Env) (s : SyncState) : SyncState :=
  if ¬ env.hasToken then s
  else if s.photos = [] ∧ s.worlds = [] then s
  else if env.alive then process_offline_queue env (set_online s) else s

/-- Model of `VRCUploaderApp._on_new_screenshot` (lines 127-180): ignore the event
without a token or with auto-upload disabled; while offline queue the
photo directly; otherwise attempt a direct upload, going online on success
and, on failure, going offline and then queueing the photo. -/
def on_new_screenshot (env : Env) (p : PhotoRec) (b : Bytes) (s : SyncState) : SyncState :=
  if ¬ env.hasToken then s
  else if ¬ env.autoUpload then s
  else if s.isOffline then queue_photo p b s
  else if env.uploadOk p b then set_online s
  else queue_photo p b (set_offline s)

/-- Model of `VRCUploaderApp._report_join` (lines 223-246), as scheduled by
`_on_world_joined` (which only schedules it when a token is present):
while offline queue the world-join; otherwise attempt the report, going
online on success and, on failure, going offline and then queueing it. -/
def report_join (env : Env) (w : WorldJoinRec) (s : SyncState) : SyncState :=
  if ¬ env.hasToken then s
  else if s.isOffline then queue_world_join w s
  else if env.joinOk w then set_online s
  else queue_world_join w (set_offline s)

/-- Model of `OfflineQueueManager.has_pending_data` as seen by the controller: true
iff either queue is nonempty. -/
def has_pending (s : SyncState) : Bool := !(s.worlds.isEmpty && s.photos.isEmpty)

/-- Model of `VRCUploaderApp.__init__` (line 79): the `_is_offline` flag starts
false, regardless of what the persistent queues contain. -/
def initState (worlds : List WorldJoinRec) (photos : List (PhotoRec × Bytes)) : SyncState :=
  { isOffline := false
    worlds := worlds
    photos := photos
    attempts := []
    sent := []
    tasks := [] }

/-- The startup adjustment in `main` (src/main.py lines 628-633): if the
offline queue reports pending data, the flag is forced to true and a drain
attempt is scheduled shortly after start. -/
def startupState (worlds : List WorldJoinRec) (photos : List (PhotoRec × Bytes)) : SyncState :=
  let s := initState worlds photos
  if has_pending s then
    { s with isOffline := true, tasks := s.tasks ++ [TaskKind.trySendQueue] }
  else s

/-- States of the sync controller reachable from a process start (over any
persisted queue contents) by the modelled operations, each under an
arbitrary environment. -/
inductive Reachable : SyncState → Prop
  | startup (worlds : List WorldJoinRec) (photos : List (PhotoRec × Bytes)) :
      Reachable (startupState worlds photos)
  | screenshot (env : Env) (p : PhotoRec) (b : Bytes) (s : SyncState) :
      Reachable s → Reachable (on_new_screenshot env p b s)
  | join (env : Env) (w : WorldJoinRec) (s : SyncState) :
      Reachable s → Reachable (report_join env w s)
  | health (env : Env) (s : SyncState) :
      Reachable s → Reachable (check_server_health env s)
  | trySend (env : Env) (s : SyncState) :
      Reachable s → Reachable (try_send_queue env s)
  | force (env : Env) (s : SyncState) :
      Reachable s → Reachable (force_resend env s)

/-- The controller invariant: whenever either queue is nonempty (at an
operation boundary), the controller is offline. -/
def PendingOffline (s : SyncState) : Prop :=
  (s.worlds ≠ [] ∨ s.photos ≠ []) → s.isOffline = true

end Sync

namespace Sync

theorem drainWorlds_photos (env : Env) :
    ∀ (ws : List WorldJoinRec) (s : SyncState),
      ((drainWorlds env ws s).1).photos = s.photos := by
  intro ws
  induction ws with
  | nil => intro s; rfl
  | cons w rest ih =>
    intro s
    simp only [drainWorlds]
    cases h : env.joinOk w with
    | true => simp [h, ih]
    | false => simp [h, set_offline]

theorem drainWorlds_abort (env : Env) :
    ∀ (ws : List WorldJoinRec) (s : SyncState),
      (drainWorlds env ws s).2 = false → ((drainWorlds env ws s).1).isOffline = true := by
  intro ws
  induction ws with
  | nil => intro s h; exact absurd h (by simp [drainWorlds])
  | cons w rest ih =>
    intro s
    simp only [drainWorlds]
    cases h : env.joinOk w with
    | true => simp only [if_pos rfl]; exact ih _
    | false => intro _; simp [set_offline]

theorem drainWorlds_ok_fields (env : Env) :
    ∀ (ws : List WorldJoinRec) (s : SyncState),
      (∀ w ∈ ws, env.joinOk w = true) →
      (drainWorlds env ws s).2 = true ∧
      ((drainWorlds env ws s).1).attempts = s.attempts ++ ws.map Attempt.world ∧
      ((drainWorlds env ws s).1).sent = s.sent ++ ws.map Attempt.world ∧
      ((drainWorlds env ws s).1).isOffline = s.isOffline ∧
      ((drainWorlds env ws s).1).tasks = s.tasks := by
  intro ws
  induction ws with
  | nil => intro s _; simp [drainWorlds]
  | cons w rest ih =>
    intro s hok
    have hw : env.joinOk w = true := hok w (List.mem_cons_self w rest)
    have hrest : ∀ x ∈ rest, env.joinOk x = true := fun x hx => hok x (List.mem_cons_of_mem w hx)
    simp only [drainWorlds, hw, if_pos]
    have := ih { s with
      attempts := s.attempts ++ [Attempt.world w]
      worlds := (s.worlds.filter (fun x => x.id != w.id))
      sent := s.sent ++ [Attempt.world w] } hrest
    simpa using this

theorem sublist_filter_step_world {w : WorldJoinRec} {l t : List WorldJoinRec}
    (h : l.Sublist (w :: t)) : (l.filter (fun x => x.id != w.id)).Sublist t := by
  cases h with
  | cons _ h' => exact (List.filter_sublist l).trans h'
  | cons₂ _ h' =>
    rename_i u
    simp only [List.filter_cons, bne_self_eq_false, ite_false, if_false]
    exact (List.filter_sublist u).trans h'

theorem drainWorlds_empties (env : Env) :
    ∀ (ws : List WorldJoinRec) (s : SyncState),
      (∀ w ∈ ws, env.joinOk w = true) → s.worlds.Sublist ws →
      ((drainWorlds env ws s).1).worlds = [] := by
  intro ws
  induction ws with
  | nil =>
    intro s _ hsub
    simpa [drainWorlds] using List.sublist_nil.mp hsub
  | cons w rest ih =>
    intro s hok hsub
    have hw : env.joinOk w = true := hok w (List.mem_cons_self w rest)
    have hrest : ∀ x ∈ rest, env.joinOk x = true := fun x hx => hok x (List.mem_cons_of_mem w hx)
    simp only [drainWorlds, hw, if_pos]
    exact ih _ hrest (sublist_filter_step_world hsub)

theorem drainPhotos_worlds (env : Env) :
    ∀ (ps : List (PhotoRec × Bytes)) (s : SyncState),
      ((drainPhotos env ps s).1).worlds = s.worlds := by
  intro ps
  induction ps with
  | nil => intro s; rfl
  | cons pb rest ih =>
    intro s
    obtain ⟨p, b⟩ := pb
    simp only [drainPhotos]
    cases h : env.uploadOk p b with
    | true => simp [h, ih]
    | false => simp [h, set_offline]

theorem drainPhotos_abort (env : Env) :
    ∀ (ps : List (PhotoRec × Bytes)) (s : SyncState),
      (drainPhotos env ps s).2 = false → ((drainPhotos env ps s).1).isOffline = true := by
  intro ps
  induction ps with
  | nil => intro s h; exact absurd h (by simp [drainPhotos])
  | cons pb rest ih =>
    intro s
    obtain ⟨p, b⟩ := pb
    simp only [drainPhotos]
    cases h : env.uploadOk p b with
    | true => simp only [if_pos rfl]; exact ih _
    | false => intro _; simp [set_offline]

theorem drainPhotos_ok_fields (env : Env) :
    ∀ (ps : List (PhotoRec × Bytes)) (s : SyncState),
      (∀ pb ∈ ps, env.uploadOk pb.1 pb.2 = true) →
      (drainPhotos env ps s).2 = true ∧
      ((drainPhotos env ps s).1).attempts =
        s.attempts ++ ps.map (fun pb => Attempt.photo pb.1 pb.2) ∧
      ((drainPhotos env ps s).1).sent =
        s.sent ++ ps.map (fun pb => Attempt.photo pb.1 pb.2) ∧
      ((drainPhotos env ps s).1).isOffline = s.isOffline ∧
      ((drainPhotos env ps s).1).tasks = s.tasks := by
  intro ps
  induction ps with
  | nil => intro s _; simp [drainPhotos]
  | cons pb rest ih =>
    intro s hok
    obtain ⟨p, b⟩ := pb
    have hp : env.uploadOk p b = true := hok (p, b) (List.mem_cons_self (p, b) rest)
    have hrest : ∀ x ∈ rest, env.uploadOk x.1 x.2 = true :=
      fun x hx => hok x (List.mem_cons_of_mem (p, b) hx)
    simp only [drainPhotos, hp, if_pos]
    have := ih { s with
      attempts := s.attempts ++ [Attempt.photo p b]
      photos := (s.photos.filter (fun x => x.1.id != p.id))
      sent := s.sent ++ [Attempt.photo p b] } hrest
    simpa using this

theorem sublist_filter_step_photo {p : PhotoRec} {b : Bytes}
    {l t : List (PhotoRec × Bytes)}
    (h : l.Sublist ((p, b) :: t)) : (l.filter (fun x => x.1.id != p.id)).Sublist t := by
  cases h with
  | cons _ h' => exact (List.filter_sublist l).trans h'
  | cons₂ _ h' =>
    rename_i u
    simp only [List.filter_cons, bne_self_eq_false, ite_false, if_false]
    exact (List.filter_sublist u).trans h'

theorem drainPhotos_empties (env : Env) :
    ∀ (ps : List (PhotoRec × Bytes)) (s : SyncState),
      (∀ pb ∈ ps, env.uploadOk pb.1 pb.2 = true) → s.photos.Sublist ps →
      ((drainPhotos env ps s).1).photos = [] := by
  intro ps
  induction ps with
  | nil =>
    intro s _ hsub
    simpa [drainPhotos] using List.sublist_nil.mp hsub
  | cons pb rest ih =>
    intro s hok hsub
    obtain ⟨p, b⟩ := pb
    have hp : env.uploadOk p b = true := hok (p, b) (List.mem_cons_self (p, b) rest)
    have hrest : ∀ x ∈ rest, env.uploadOk x.1 x.2 = true :=
      fun x hx => hok x (List.mem_cons_of_mem (p, b) hx)
    simp only [drainPhotos, hp, if_pos]
    exact ih _ hrest (sublist_filter_step_photo hsub)

end Sync

namespace Sync

theorem drainWorlds_true_empties (env : Env) :
    ∀ (ws : List WorldJoinRec) (s : SyncState),
      (drainWorlds env ws s).2 = true → s.worlds.Sublist ws →
      ((drainWorlds env ws s).1).worlds = [] := by
  intro ws
  induction ws with
  | nil =>
    intro s _ hsub
    simpa [drainWorlds] using List.sublist_nil.mp hsub
  | cons w rest ih =>
    intro s hflag hsub
    cases hw : env.joinOk w with
    | true =>
      simp only [drainWorlds, hw, if_pos] at hflag ⊢
      exact ih _ hflag (sublist_filter_step_world hsub)
    | false =>
      simp [drainWorlds, hw] at hflag
  
theorem drainPhotos_true_empties (env : Env) :
    ∀ (ps : List (PhotoRec × Bytes)) (s : SyncState),
      (drainPhotos env ps s).2 = true → s.photos.Sublist ps →
      ((drainPhotos env ps s).1).photos = [] := by
  intro ps
  induction ps with
  | nil =>
    intro s _ hsub
    simpa [drainPhotos] using List.sublist_nil.mp hsub
  | cons pb rest ih =>
    intro s hflag hsub
    obtain ⟨p, b⟩ := pb
    cases hp : env.uploadOk p b with
    | true =>
      simp only [drainPhotos, hp, if_pos] at hflag ⊢
      exact ih _ hflag (sublist_filter_step_photo hsub)
    | false =>
      simp [drainPhotos, hp] at hflag


theorem process_pendingOffline (env : Env) (s : SyncState)
    (ht : env.hasToken = true) : PendingOffline (process_offline_queue env s) := by
  unfold PendingOffline process_offline_queue
  rw [if_neg (by simp [ht])]
  cases hW : (drainWorlds env s.worlds s).2 with
  | false =>
    rw [if_pos (by simp [hW])]
    intro _
    exact drainWorlds_abort env s.worlds s hW
  | true =>
    rw [if_neg (by simp [hW])]
    cases hP : (drainPhotos env (drainWorlds env s.worlds s).1.photos
        (drainWorlds env s.worlds s).1).2 with
    | false =>
      intro _
      exact drainPhotos_abort env _ _ hP
    | true =>
      intro hpend
      exfalso
      have hw0 : ((drainWorlds env s.worlds s).1).worlds = [] :=
        drainWorlds_true_empties env s.worlds s hW (List.Sublist.refl _)
      have hp0 : ((drainPhotos env (drainWorlds env s.worlds s).1.photos
          (drainWorlds env s.worlds s).1).1).photos = [] :=
        drainPhotos_true_empties env _ _ hP (List.Sublist.refl _)
      have hw1 : ((drainPhotos env (drainWorlds env s.worlds s).1.photos
          (drainWorlds env s.worlds s).1).1).worlds = [] := by
        rw [drainPhotos_worlds]; exact hw0
      rcases hpend with h | h
      · exact h hw1
      · exact h hp0

theorem startup_pendingOffline (worlds : List WorldJoinRec)
    (photos : List (PhotoRec × Bytes)) : PendingOffline (startupState worlds photos) := by
  unfold PendingOffline startupState has_pending initState
  intro hpend
  cases hw : worlds with
  | cons a l => simp [hw]
  | nil =>
    cases hp : photos with
    | cons a l => simp [hw, hp]
    | nil =>
      exfalso
      subst hw hp
      rcases hpend with h | h <;> exact h rfl

theorem reachable_pendingOffline (s : SyncState) (hr : Reachable s) :
    PendingOffline s := by
  induction hr with
  | startup worlds photos => exact startup_pendingOffline worlds photos
  | screenshot env p b s _ ih =>
    unfold on_new_screenshot
    by_cases ht : env.hasToken = true
    · rw [if_neg (by simp [ht])]
      by_cases ha : env.autoUpload = true
      · rw [if_neg (by simp [ha])]
        cases hoff : s.isOffline with
        | true =>
          rw [if_pos rfl]
          intro _
          simp [queue_photo, hoff]
        | false =>
          rw [if_neg (by simp [hoff])]
          cases hup : env.uploadOk p b with
          | true =>
            rw [if_pos rfl]
            intro hpend
            exfalso
            have hnp : s.worlds ≠ [] ∨ s.photos ≠ [] → False := by
              intro hx
              have hq := ih hx
              rw [hoff] at hq
              exact Bool.false_ne_true hq
            rcases hpend with h | h
            · exact hnp (Or.inl (by simpa [set_online] using h))
            · exact hnp (Or.inr (by simpa [set_online] using h))
          | false =>
            rw [if_neg (by simp [hup])]
            intro _
            simp [queue_photo, set_offline]
      · rw [if_pos (by simp [ha])]
        exact ih
    · rw [if_pos ht]
      exact ih
  | join env w s _ ih =>
    unfold report_join
    by_cases ht : env.hasToken = true
    · rw [if_neg (by simp [ht])]
      cases hoff : s.isOffline with
      | true =>
        rw [if_pos rfl]
        intro _
        simp [queue_world_join, hoff]
      | false =>
        rw [if_neg (by simp [hoff])]
        cases hj : env.joinOk w with
        | true =>
          rw [if_pos rfl]
          intro hpend
          exfalso
          have hnp : s.worlds ≠ [] ∨ s.photos ≠ [] → False := by
            intro hx
            have hq := ih hx
            rw [hoff] at hq
            exact Bool.false_ne_true hq
          rcases hpend with h | h
          · exact hnp (Or.inl (by simpa [set_online] using h))
          · exact hnp (Or.inr (by simpa [set_online] using h))
        | false =>
          rw [if_neg (by simp [hj])]
          intro _
          simp [queue_world_join, set_offline]
    · rw [if_pos ht]
      exact ih
  | health env s _ ih =>
    unfold check_server_health
    by_cases ht : env.hasToken = true
    · rw [if_neg (by simp [ht])]
      cases ha : env.alive with
      | true =>
        rw [if_pos rfl]
        cases hoff : s.isOffline with
        | true =>
          rw [if_pos rfl]
          exact process_pendingOffline env (set_online s) ht
        | false =>
          rw [if_neg (by simp [hoff])]
          exact ih
      | false =>
        rw [if_neg (by simp [ha])]
        intro _
        simp [set_offline]
    · rw [if_pos ht]
      exact ih
  | trySend env s _ ih =>
    unfold try_send_queue
    by_cases ht : env.hasToken = true
    · rw [if_neg (by simp [ht])]
      by_cases hq : s.photos = [] ∧ s.worlds = []
      · rw [if_pos hq]
        exact ih
      · rw [if_neg hq]
        cases ha : env.alive with
        | true =>
          rw [if_pos rfl]
          exact process_pendingOffline env (set_online s) ht
        | false =>
          rw [if_neg (by simp [ha])]
          exact ih
    · rw [if_pos ht]
      exact ih
  | force env s _ ih =>
    unfold force_resend
    by_cases ht : env.hasToken = true
    · rw [if_neg (by simp [ht])]
      by_cases hq : s.photos = [] ∧ s.worlds = []
      · rw [if_pos hq]
        exact ih
      · rw [if_neg hq]
        cases ha : env.alive with
        | true =>
          rw [if_pos rfl]
          exact process_pendingOffline env (set_online s) ht
        | false =>
          rw [if_neg (by simp [ha])]
          exact ih
    · rw [if_pos ht]
      exact ih

end Sync

/-- A sample world-join record used by concrete witnesses. -/
def Sync.sampleWorld : Sync.WorldJoinRec :=
  { id := "w1", world_id := "wrld_1", instance_id := "inst_1"
    vrc_user_id := none, vrc_display_name := none }

/-- A second sample world-join record used by concrete witnesses. -/
def Sync.sampleWorld2 : Sync.WorldJoinRec :=
  { id := "w2", world_id := "wrld_2", instance_id := "inst_2"
    vrc_user_id := none, vrc_display_name := none }

/-- A sample queued-photo record keyed by its queue id, used by concrete
witnesses. -/
def Sync.samplePhoto (i : String) : Sync.PhotoRec :=
  { id := i, filename := i ++ ".jpg", world_id := none, instance_id := none
    visibility := "self", camera_data := none }

/-- An environment in which every remote operation succeeds. -/
def Sync.envOk : Sync.Env :=
  { hasToken := true, autoUpload := true, alive := true
    joinOk := fun _ => true, uploadOk := fun _ _ => true }

/-- An environment in which the upload of the photo whose queue id is the
string b fails (transport error or embedded error status) and every other
remote operation succeeds. -/
def Sync.envAbort : Sync.Env :=
  { hasToken := true, autoUpload := true, alive := true
    joinOk := fun _ => true, uploadOk := fun p _ => p.id != "b" }

/-- An environment whose probe reports the server dead. -/
def Sync.envDead : Sync.Env :=
  { hasToken := true, autoUpload := true, alive := false
    joinOk := fun _ => true, uploadOk := fun _ _ => true }

/-- A concrete offline state holding exactly three queued photos a, b, c. -/
def Sync.sAbort : Sync.SyncState :=
  { isOffline := true, worlds := []
    photos := [(Sync.samplePhoto "a", [1]), (Sync.samplePhoto "b", [2]),
               (Sync.samplePhoto "c", [3])]
    attempts := [], sent := [], tasks := [] }

/-- A concrete offline state holding two queued world-joins and three
queued photos, echoing the spec's drain-ordering scenario. -/
def Sync.sDrain : Sync.SyncState :=
  { isOffline := true, worlds := [Sync.sampleWorld, Sync.sampleWorld2]
    photos := [(Sync.samplePhoto "a", [1]), (Sync.samplePhoto "b", [2]),
               (Sync.samplePhoto "c", [3])]
    attempts := [], sent := [], tasks := [] }

/-- A concrete offline state with empty queues and an empty task list. -/
def Sync.s5 : Sync.SyncState :=
  { isOffline := true, worlds := [], photos := []
    attempts := [], sent := [], tasks := [] }

/-- C1: during a drain of a queue holding three photos whose second remote
upload fails (transport error or a response whose status field is error,
both modelled by the environment returning false), the first photo has
been removed from the queue, the second and third photos remain queued,
the third is never attempted, and the connectivity state becomes
Offline. -/
theorem c1_abort_on_second_photo (env : Sync.Env) (s : Sync.SyncState)
    (p1 p2 p3 : Sync.PhotoRec) (b1 b2 b3 : Sync.Bytes)
    (hw : s.worlds = []) (hp : s.photos = [(p1, b1), (p2, b2), (p3, b3)])
    (ht : env.hasToken = true)
    (h1 : env.uploadOk p1 b1 = true) (h2 : env.uploadOk p2 b2 = false)
    (d21 : p2.id ≠ p1.id) (d31 : p3.id ≠ p1.id) :
    (Sync.process_offline_queue env s).photos = [(p2, b2), (p3, b3)] ∧
    (Sync.process_offline_queue env s).isOffline = true ∧
    (Sync.process_offline_queue env s).attempts =
      s.attempts ++ [Sync.Attempt.photo p1 b1, Sync.Attempt.photo p2 b2] := by
  obtain ⟨soff, sworlds, sphotos, satt, ssent, stasks⟩ := s
  simp only [] at hw hp
  subst hw
  subst hp
  unfold Sync.process_offline_queue
  rw [if_neg (by simp [ht])]
  simp only [Sync.drainWorlds]
  rw [if_neg (by simp)]
  simp [Sync.drainPhotos, h1, h2, Sync.set_offline, List.filter_cons,
    bne_iff_ne, d21, d31]

/-- C1 witness: the theorem applied to three concrete photos a, b, c in an
environment where the upload of photo b fails. -/
theorem c1_witness :
    (Sync.process_offline_queue Sync.envAbort Sync.sAbort).photos =
      [(Sync.samplePhoto "b", [2]), (Sync.samplePhoto "c", [3])] ∧
    (Sync.process_offline_queue Sync.envAbort Sync.sAbort).isOffline = true ∧
    (Sync.process_offline_queue Sync.envAbort Sync.sAbort).attempts =
      Sync.sAbort.attempts ++
        [Sync.Attempt.photo (Sync.samplePhoto "a") [1],
         Sync.Attempt.photo (Sync.samplePhoto "b") [2]] :=
  c1_abort_on_second_photo Sync.envAbort Sync.sAbort
    (Sync.samplePhoto "a") (Sync.samplePhoto "b") (Sync.samplePhoto "c")
    [1] [2] [3] rfl rfl rfl (by decide) (by decide) (by decide) (by decide)

/-- C2: for every queue state, a fully successful drain attempts all
queued world-joins, in their FIFO enqueue order, before attempting any
queued photo, then attempts all queued photos in their FIFO enqueue order,
and leaves both queues empty. -/
theorem c2_drain_order (env : Sync.Env) (s : Sync.SyncState)
    (ht : env.hasToken = true)
    (hw : ∀ w ∈ s.worlds, env.joinOk w = true)
    (hp : ∀ pb ∈ s.photos, env.uploadOk pb.1 pb.2 = true) :
    (Sync.process_offline_queue env s).attempts =
      s.attempts ++ s.worlds.map Sync.Attempt.world ++
        s.photos.map (fun pb => Sync.Attempt.photo pb.1 pb.2) ∧
    (Sync.process_offline_queue env s).worlds = [] ∧
    (Sync.process_offline_queue env s).photos = [] := by
  unfold Sync.process_offline_queue
  rw [if_neg (by simp [ht])]
  obtain ⟨hf, hatt, _hsent, _hoffl, _htasks⟩ := Sync.drainWorlds_ok_fields env s.worlds s hw
  rw [if_neg (by simp [hf])]
  have hphotos1 : ((Sync.drainWorlds env s.worlds s).1).photos = s.photos :=
    Sync.drainWorlds_photos env s.worlds s
  have hp1 : ∀ pb ∈ ((Sync.drainWorlds env s.worlds s).1).photos,
      env.uploadOk pb.1 pb.2 = true := by
    rw [hphotos1]; exact hp
  obtain ⟨pf, patt, _psent, _poffl, _ptasks⟩ :=
    Sync.drainPhotos_ok_fields env ((Sync.drainWorlds env s.worlds s).1).photos
      ((Sync.drainWorlds env s.worlds s).1) hp1
  refine ⟨?_, ?_, ?_⟩
  · rw [patt, hatt, hphotos1]
  · rw [Sync.drainPhotos_worlds]
    exact Sync.drainWorlds_true_empties env s.worlds s hf (List.Sublist.refl _)
  · exact Sync.drainPhotos_true_empties env _ _ pf (List.Sublist.refl _)

/-- C2 witness: the theorem applied to the concrete state with two queued
world-joins and three queued photos in an all-success environment: both
joins are attempted, in order, before any photo. -/
theorem c2_witness :
    (Sync.process_offline_queue Sync.envOk Sync.sDrain).attempts =
      Sync.sDrain.attempts ++ Sync.sDrain.worlds.map Sync.Attempt.world ++
        Sync.sDrain.photos.map (fun pb => Sync.Attempt.photo pb.1 pb.2) ∧
    (Sync.process_offline_queue Sync.envOk Sync.sDrain).worlds = [] ∧
    (Sync.process_offline_queue Sync.envOk Sync.sDrain).photos = [] :=
  c2_drain_order Sync.envOk Sync.sDrain rfl (fun _ _ => rfl) (fun _ _ => rfl)

/-- C3 counterexample: the claim says the connectivity state is initially
Offline; but `VRCUploaderApp.__init__` sets `_is_offline` to False, so the
initial state is Online, and it is still Online after the startup
adjustment when the persisted queues are empty. -/
theorem c3_counterexample :
    (Sync.initState [] []).isOffline = false ∧
    (Sync.startupState [] []).isOffline = false :=
  ⟨rfl, rfl⟩

/-- C3 amended: the connectivity state is initially Online (`_is_offline`
is False in `__init__`); at startup it is forced to Offline exactly when
the offline store reports pending data, and otherwise stays Online until a
send or probe outcome changes it. -/
theorem c3_amended (worlds : List Sync.WorldJoinRec)
    (photos : List (Sync.PhotoRec × Sync.Bytes)) :
    (Sync.initState worlds photos).isOffline = false ∧
    (Sync.startupState worlds photos).isOffline =
      Sync.has_pending (Sync.initState worlds photos) := by
  refine ⟨rfl, ?_⟩
  simp only [Sync.startupState]
  cases h : Sync.has_pending (Sync.initState worlds photos) with
  | true => rw [if_pos rfl]
  | false => rw [if_neg (by simp)]; rfl

/-- C4: for every reachable controller state and every operation that
performs a probe (the periodic health check, the enqueue-triggered queue
send, and the caller-initiated force resend; the latter two only probe
when a queue is nonempty), if the probe reports the server dead then the
connectivity state afterwards is Offline. -/
theorem c4_probe_offline (env : Sync.Env) (s : Sync.SyncState)
    (hr : Sync.Reachable s) (ht : env.hasToken = true)
    (hdead : env.alive = false) :
    (Sync.check_server_health env s).isOffline = true ∧
    (s.worlds ≠ [] ∨ s.photos ≠ [] →
      (Sync.try_send_queue env s).isOffline = true) ∧
    (s.worlds ≠ [] ∨ s.photos ≠ [] →
      (Sync.force_resend env s).isOffline = true) := by
  have hinv := Sync.reachable_pendingOffline s hr
  refine ⟨?_, ?_, ?_⟩
  · unfold Sync.check_server_health
    rw [if_neg (by simp [ht]), if_neg (by simp [hdead])]
    rfl
  · intro hpend
    unfold Sync.try_send_queue
    rw [if_neg (by simp [ht])]
    rw [if_neg (by intro hc; rcases hpend with h | h; exacts [h hc.2, h hc.1])]
    rw [if_neg (by simp [hdead])]
    exact hinv hpend
  · intro hpend
    unfold Sync.force_resend
    rw [if_neg (by simp [ht])]
    rw [if_neg (by intro hc; rcases hpend with h | h; exacts [h hc.2, h hc.1])]
    rw [if_neg (by simp [hdead])]
    exact hinv hpend

/-- C4 witness: the theorem applied to the reachable startup state with one
pending world-join (hence Offline) and an environment whose probe reports
the server dead. -/
theorem c4_witness :
    (Sync.check_server_health Sync.envDead
      (Sync.startupState [Sync.sampleWorld] [])).isOffline = true ∧
    ((Sync.startupState [Sync.sampleWorld] []).worlds ≠ [] ∨
      (Sync.startupState [Sync.sampleWorld] []).photos ≠ [] →
      (Sync.try_send_queue Sync.envDead
        (Sync.startupState [Sync.sampleWorld] [])).isOffline = true) ∧
    ((Sync.startupState [Sync.sampleWorld] []).worlds ≠ [] ∨
      (Sync.startupState [Sync.sampleWorld] []).photos ≠ [] →
      (Sync.force_resend Sync.envDead
        (Sync.startupState [Sync.sampleWorld] [])).isOffline = true) :=
  c4_probe_offline Sync.envDead (Sync.startupState [Sync.sampleWorld] [])
    (Sync.Reachable.startup [Sync.sampleWorld] []) rfl rfl

/-- C5 counterexample: the claim says every enqueue while Offline, photo or
world-join, schedules an immediate drain attempt; but `_queue_world_join`
schedules nothing: from an offline state with an empty task queue, the
task queue is still empty after a world-join is enqueued. -/
theorem c5_counterexample :
    Sync.s5.isOffline = true ∧
    (Sync.queue_world_join Sync.sampleWorld Sync.s5).tasks = [] :=
  ⟨rfl, rfl⟩

/-- C5 amended: an enqueue while Offline leaves the connectivity state
unchanged for both kinds; a photo enqueue additionally schedules an
immediate drain attempt (`try_send_queue`), but a world-join enqueue
schedules none. -/
theorem c5_amended (s : Sync.SyncState) (p : Sync.PhotoRec) (b : Sync.Bytes)
    (w : Sync.WorldJoinRec) (hoff : s.isOffline = true) :
    (Sync.queue_photo p b s).isOffline = true ∧
    (Sync.queue_photo p b s).tasks = s.tasks ++ [Sync.TaskKind.trySendQueue] ∧
    (Sync.queue_world_join w s).isOffline = true ∧
    (Sync.queue_world_join w s).tasks = s.tasks :=
  ⟨hoff, rfl, hoff, rfl⟩

/-- C5 witness: the amended theorem applied to the concrete offline state
with empty queues. -/
theorem c5_witness :
    (Sync.queue_photo (Sync.samplePhoto "a") [1] Sync.s5).isOffline = true ∧
    (Sync.queue_photo (Sync.samplePhoto "a") [1] Sync.s5).tasks =
      Sync.s5.tasks ++ [Sync.TaskKind.trySendQueue] ∧
    (Sync.queue_world_join Sync.sampleWorld Sync.s5).isOffline = true ∧
    (Sync.queue_world_join Sync.sampleWorld Sync.s5).tasks = Sync.s5.tasks :=
  c5_amended Sync.s5 (Sync.samplePhoto "a") [1] Sync.sampleWorld rfl

/-! ## Queue store (src/core/offline_queue.py), modelled at the ledger-row
level: a CSV file is a list of rows, each a list of string cells, the
first row being the header; `csv.DictReader` semantics (header-keyed
dictionaries, short rows padded with None, blank rows skipped, duplicate
header names resolved by last assignment) are modelled explicitly, and the
Python exceptions that can escape the listing and removal code (KeyError
on a missing header field, a json.loads failure, DictWriter's ValueError
on extra fields) surface as Except errors.  The camera-data payload type
and the json encoder and decoder are parameters: `dumps`/`loads` stand for
json.dumps/json.loads and `truthy` for Python truthiness of the payload
(an empty dict is falsy). -/

namespace Store

/-- Byte strings, modelled as lists of naturals. -/
abbrev Bytes := List Nat

/-- Python exceptions that can escape the modelled store operations. -/
inductive PyErr
  | keyError (k : String)
  | valueError
  | jsonError
deriving DecidableEq, Repr

/-- A dictionary cell: `none` models Python None (a field absent from a
short row), `some s` a string value. -/
abbrev Cell := Option String

/-- A parsed CSV file: the list of its rows; the first row is the header
read by `csv.DictReader`. -/
abbrev LedgerFile := List (List String)

/-- Model of `OfflineQueueManager.PHOTO_FIELDS`. -/
def PHOTO_FIELDS : List String :=
  ["id", "filename", "world_id", "instance_id", "visibility",
   "taken_at", "camera_data", "created_at"]

/-- Model of `OfflineQueueManager.WORLD_FIELDS`. -/
def WORLD_FIELDS : List String :=
  ["id", "world_id", "instance_id", "vrc_user_id", "vrc_display_name", "created_at"]

/-- Dictionary assignment with Python overwrite semantics: a later
assignment to an existing key replaces its value in place. -/
def assocSet (d : List (String × Cell)) (k : String) (v : Cell) : List (String × Cell) :=
  if d.any (fun kv => kv.1 == k) then
    d.map (fun kv => if kv.1 == k then (k, v) else kv)
  else d ++ [(k, v)]

/-- Assign each header name, in order, the row cell at its index (None
beyond the row's length), with later assignments overwriting earlier ones:
this is csv.DictReader's dict construction (zip plus restval padding);
extra cells beyond the header go to the restkey None and are never looked
up by the store's readers. -/
def dictOfRowAux (row : List String) : List String → Nat → List (String × Cell) → List (String × Cell)
  | [], _, d => d
  | k :: ks, i, d => dictOfRowAux row ks (i + 1) (assocSet d k row[i]?)

/-- The dictionary csv.DictReader yields for one data row under the given
header. -/
def dictOfRow (header row : List String) : List (String × Cell) :=
  dictOfRowAux row header 0 []

/-- Python `d[k]` on a DictReader row: the cell when the key is present, a
KeyError otherwise. -/
def dictGet (d : List (String × Cell)) (k : String) : Except PyErr Cell :=
  match d.find? (fun kv => kv.1 == k) with
  | some kv => Except.ok kv.2
  | none => Except.error (PyErr.keyError k)

/-- Python string interpolation of a cell, as in the f-string building the
blob filename: None prints as the four characters None. -/
def pyStrOfCell : Cell → String
  | none => "None"
  | some s => s

/-- Python `x or None` on a cell: None and the empty string collapse to
None. -/
def orNone : Cell → Option String
  | none => none
  | some s => if s = "" then none else some s

/-- The blob directory: one named file per photo identifier. -/
abbrev Blobs := List (String × Bytes)

/-- Reading the blob file with the given name, if present. -/
def blobLookup (bs : Blobs) (k : String) : Option Bytes :=
  (bs.find? (fun kv => kv.1 == k)).map (fun kv => kv.2)

/-- Writing (or overwriting) the blob file with the given name. -/
def blobWrite (bs : Blobs) (k : String) (v : Bytes) : Blobs :=
  if bs.any (fun kv => kv.1 == k) then
    bs.map (fun kv => if kv.1 == k then (k, v) else kv)
  else bs ++ [(k, v)]

/-- Deleting the blob file with the given name if it exists
(`image_path.unlink()` guarded by `exists()`). -/
def blobErase (bs : Blobs) (k : String) : Blobs :=
  bs.filter (fun kv => kv.1 != k)

/-- The QueuedPhoto dataclass as built back by `get_queued_photos`: every
field holds whatever the row dictionary produced (None included), the
optional world and instance ids go through `or None`, and the camera data
through json.loads when non-empty. -/
structure QueuedPhoto (Cam : Type) where
  id : Cell
  filename : Cell
  world_id : Option String
  instance_id : Option String
  visibility : Cell
  taken_at : Cell
  camera_data : Option Cam
  created_at : Cell
deriving DecidableEq

/-- The QueuedWorldJoin dataclass as built back by
`get_queued_world_joins`: plain cells, no coercions. -/
structure QueuedWorldJoin where
  id : Cell
  world_id : Cell
  instance_id : Cell
  vrc_user_id : Cell
  vrc_display_name : Cell
  created_at : Cell
deriving DecidableEq, Repr

/-- The expression `json.loads(row['camera_data']) if row['camera_data']
else None`: None and the empty string are falsy and give None; any other
string is parsed, and a parse failure escapes (there is no try/except in
`get_queued_photos`). -/
def camOfCell {Cam : Type} (loads : String → Except Unit Cam) (c : Cell) :
    Except PyErr (Option Cam) :=
  match c with
  | none => Except.ok none
  | some s =>
    if s = "" then Except.ok none
    else
      match loads s with
      | Except.ok v => Except.ok (some v)
      | Except.error _ => Except.error PyErr.jsonError

/-- Processing of one data row by `get_queued_photos` (lines 150-169): the
blob filename is built from `row['id']` (a KeyError escapes); a row whose
blob file is absent is skipped; otherwise the record is built, each field
lookup in constructor-argument order, the camera data parsed last of the
fallible steps. -/
def readPhotoRow {Cam : Type} (loads : String → Except Unit Cam) (blobs : Blobs)
    (header row : List String) : Except PyErr (Option (QueuedPhoto Cam × Bytes)) := do
  let d := dictOfRow header row
  let idc ← dictGet d "id"
  match blobLookup blobs (pyStrOfCell idc) with
  | none => pure none
  | some bytes => do
    let fn ← dictGet d "filename"
    let wid ← dictGet d "world_id"
    let iid ← dictGet d "instance_id"
    let vis ← dictGet d "visibility"
    let ta ← dictGet d "taken_at"
    let cdc ← dictGet d "camera_data"
    let cd ← camOfCell loads cdc
    let ca ← dictGet d "created_at"
    pure (some (⟨idc, fn, orNone wid, orNone iid, vis, ta, cd, ca⟩, bytes))

/-- The row loop of `get_queued_photos`: blank rows are skipped by
DictReader, skipped rows contribute nothing, the first escaping exception
aborts the whole listing. -/
def getQueuedPhotosRows {Cam : Type} (loads : String → Except Unit Cam) (blobs : Blobs)
    (header : List String) : List (List String) → Except PyErr (List (QueuedPhoto Cam × Bytes))
  | [] => Except.ok []
  | row :: rest =>
    if row.isEmpty then getQueuedPhotosRows loads blobs header rest
    else do
      let r ← readPhotoRow loads blobs header row
      let tail ← getQueuedPhotosRows loads blobs header rest
      match r with
      | none => pure tail
      | some x => pure (x :: tail)

/-- Model of `OfflineQueueManager.get_queued_photos` (lines 136-171): an absent file
yields the empty list, an empty file has no header and yields no rows, and
otherwise the first row is the DictReader header. -/
def get_queued_photos {Cam : Type} (loads : String → Except Unit Cam)
    (file : Option LedgerFile) (blobs : Blobs) :
    Except PyErr (List (QueuedPhoto Cam × Bytes)) :=
  match file with
  | none => Except.ok []
  | some [] => Except.ok []
  | some (header :: rows) => getQueuedPhotosRows loads blobs header rows

/-- Processing of one data row by `get_queued_world_joins` (lines
258-269): six field lookups in constructor-argument order, no blob and no
parsing. -/
def readWorldRow (header row : List String) : Except PyErr QueuedWorldJoin := do
  let d := dictOfRow header row
  let idc ← dictGet d "id"
  let w ← dictGet d "world_id"
  let i ← dictGet d "instance_id"
  let u ← dictGet d "vrc_user_id"
  let n ← dictGet d "vrc_display_name"
  let c ← dictGet d "created_at"
  pure ⟨idc, w, i, u, n, c⟩

/-- The row loop of `get_queued_world_joins`. -/
def getQueuedWorldRows (header : List String) :
    List (List String) → Except PyErr (List QueuedWorldJoin)
  | [] => Except.ok []
  | row :: rest =>
    if row.isEmpty then getQueuedWorldRows header rest
    else do
      let r ← readWorldRow header row
      let tail ← getQueuedWorldRows header rest
      pure (r :: tail)

/-- Model of `OfflineQueueManager.get_queued_world_joins` (lines 246-271). -/
def get_queued_world_joins (file : Option LedgerFile) :
    Except PyErr (List QueuedWorldJoin) :=
  match file with
  | none => Except.ok []
  | some [] => Except.ok []
  | some (header :: rows) => getQueuedWorldRows header rows

/-- The photo side of the store's persistent state: the photos.csv file
(absent or parsed) and the blob directory. -/
structure StoreState where
  photosFile : Option LedgerFile
  blobs : Blobs
deriving DecidableEq

/-- The arguments of one `queue_photo` call: the queue id stands for the
fresh uuid4 the source generates, and the two timestamp strings are the
iso-formatted values computed at enqueue time. -/
structure PhotoArgs (Cam : Type) where
  qid : String
  bytes : Bytes
  filename : String
  world_id : Option String
  instance_id : Option String
  visibility : String
  taken_at : String
  camera_data : Option Cam
  created_at : String
deriving DecidableEq

/-- The CSV row `queue_photo` appends: optional ids collapse to the empty
string (`world_id or ''`), the camera data is dumped when truthy and
written as the empty string otherwise (`json.dumps(camera_data) if
camera_data else ''`). -/
def photoRow {Cam : Type} (dumps : Cam → String) (truthy : Cam → Bool)
    (a : PhotoArgs Cam) : List String :=
  [a.qid, a.filename, a.world_id.getD "", a.instance_id.getD "", a.visibility,
   a.taken_at,
   (match a.camera_data with
    | some c => if truthy c then dumps c else ""
    | none => ""),
   a.created_at]

/-- Model of `OfflineQueueManager.queue_photo` (lines 80-134): write the blob, then
append the row to the CSV, writing the header first when the file did not
exist. -/
def queue_photo {Cam : Type} (dumps : Cam → String) (truthy : Cam → Bool)
    (a : PhotoArgs Cam) (st : StoreState) : StoreState :=
  { photosFile :=
      match st.photosFile with
      | none => some (PHOTO_FIELDS :: [photoRow dumps truthy a])
      | some rows => some (rows ++ [photoRow dumps truthy a])
    blobs := blobWrite st.blobs a.qid a.bytes }

/-- Python `row['id'] != queue_id` where the left side may be None: None
compares unequal to every string. -/
def cellNeStr (c : Cell) (q : String) : Bool :=
  match c with
  | none => true
  | some v => v != q

/-- The row filter of `remove_photo` (lines 190-193): keep the original
rows whose id cell differs from the queue id; the id lookup can raise
KeyError under a header that lacks the id field. -/
def filterRows (qid : String) (header : List String) :
    List (List String) → Except PyErr (List (List String))
  | [] => Except.ok []
  | row :: rest =>
    if row.isEmpty then filterRows qid header rest
    else do
      let idc ← dictGet (dictOfRow header row) "id"
      let tail ← filterRows qid header rest
      if cellNeStr idc qid then pure (row :: tail) else pure tail

/-- csv.DictWriter's row serialization under PHOTO_FIELDS: each field's
value, missing keys defaulting to the restval and None written as the
empty string. -/
def rewriteRow (d : List (String × Cell)) : List String :=
  PHOTO_FIELDS.map (fun k =>
    match d.find? (fun kv => kv.1 == k) with
    | some kv => kv.2.getD ""
    | none => "")

/-- One `writer.writerow` on a kept row dictionary: DictWriter raises
ValueError when the dictionary holds keys outside PHOTO_FIELDS, which
happens when the original header has alien names or the row is longer
than the header (the restkey None); otherwise the row is serialized. -/
def rewriteRowChecked (header row : List String) : Except PyErr (List String) :=
  if row.length > header.length ∨ ¬ (header.all (fun k => PHOTO_FIELDS.contains k)) then
    Except.error PyErr.valueError
  else Except.ok (rewriteRow (dictOfRow header row))

/-- Model of `OfflineQueueManager.remove_photo` (lines 173-201): delete the blob if
present, then, when the CSV exists, re-read it, drop the rows matching the
id, delete the file when nothing remains and rewrite it (fresh
PHOTO_FIELDS header) otherwise. -/
def remove_photo (qid : String) (st : StoreState) : Except PyErr StoreState := do
  let blobs := blobErase st.blobs qid
  match st.photosFile with
  | none => pure ⟨none, blobs⟩
  | some [] => pure ⟨none, blobs⟩
  | some (header :: data) => do
    let kept ← filterRows qid header data
    if kept.isEmpty then
      pure ⟨none, blobs⟩
    else do
      let rewritten ← kept.mapM (rewriteRowChecked header)
      pure ⟨some (PHOTO_FIELDS :: rewritten), blobs⟩

/-- One store call of the C7 operation language: an enqueue (with the
fresh id among its arguments) or a removal by id. -/
inductive PhotoOp (Cam : Type)
  | enqueue (a : PhotoArgs Cam)
  | remove (qid : String)
deriving DecidableEq

/-- Running a sequence of store calls left to right; the first escaping
exception aborts the run. -/
def applyOps {Cam : Type} (dumps : Cam → String) (truthy : Cam → Bool) :
    List (PhotoOp Cam) → StoreState → Except PyErr StoreState
  | [], st => Except.ok st
  | PhotoOp.enqueue a :: ops, st => applyOps dumps truthy ops (queue_photo dumps truthy a st)
  | PhotoOp.remove qid :: ops, st => do
      let st1 ← remove_photo qid st
      applyOps dumps truthy ops st1

/-- The abstract queue contents after a sequence of store calls: enqueue
appends, removal drops the entries carrying that id. -/
def simQueue {Cam : Type} : List (PhotoOp Cam) → List (PhotoArgs Cam) → List (PhotoArgs Cam)
  | [], q => q
  | PhotoOp.enqueue a :: ops, q => simQueue ops (q ++ [a])
  | PhotoOp.remove qid :: ops, q => simQueue ops (q.filter (fun x => x.qid != qid))

/-- The ids passed to the enqueue calls of a call sequence, in order. -/
def enqueueIds {Cam : Type} : List (PhotoOp Cam) → List String
  | [] => []
  | PhotoOp.enqueue a :: ops => a.qid :: enqueueIds ops
  | PhotoOp.remove _ :: ops => enqueueIds ops

/-- The record `get_queued_photos` reads back for an enqueued photo: all
fields verbatim as options, with the documented normalizations of the
round trip: an optional id enqueued as the empty string reads back as
None, and a falsy camera payload reads back as None. -/
def readBack {Cam : Type} (truthy : Cam → Bool) (a : PhotoArgs Cam) : QueuedPhoto Cam :=
  { id := some a.qid
    filename := some a.filename
    world_id := orNone (some (a.world_id.getD ""))
    instance_id := orNone (some (a.instance_id.getD ""))
    visibility := some a.visibility
    taken_at := some a.taken_at
    camera_data :=
      match a.camera_data with
      | some c => if truthy c then some c else none
      | none => none
    created_at := some a.created_at }

/-- The fresh state of a queue directory that has never been written. -/
def emptyStore : StoreState := ⟨none, []⟩

end Store

namespace Store

theorem dictOfRow_photo (row : List String) :
    dictOfRow PHOTO_FIELDS row =
      [("id", row[0]?), ("filename", row[1]?), ("world_id", row[2]?), ("instance_id", row[3]?),
       ("visibility", row[4]?), ("taken_at", row[5]?), ("camera_data", row[6]?),
       ("created_at", row[7]?)] := by
  simp [dictOfRow, dictOfRowAux, assocSet, PHOTO_FIELDS]

theorem dg_id (row : List String) :
    dictGet (dictOfRow PHOTO_FIELDS row) "id" = Except.ok row[0]? := by
  rw [dictOfRow_photo]
  simp [dictGet]

theorem dg_filename (row : List String) :
    dictGet (dictOfRow PHOTO_FIELDS row) "filename" = Except.ok row[1]? := by
  rw [dictOfRow_photo]
  simp [dictGet]

theorem dg_world_id (row : List String) :
    dictGet (dictOfRow PHOTO_FIELDS row) "world_id" = Except.ok row[2]? := by
  rw [dictOfRow_photo]
  simp [dictGet]

theorem dg_instance_id (row : List String) :
    dictGet (dictOfRow PHOTO_FIELDS row) "instance_id" = Except.ok row[3]? := by
  rw [dictOfRow_photo]
  simp [dictGet]

theorem dg_visibility (row : List String) :
    dictGet (dictOfRow PHOTO_FIELDS row) "visibility" = Except.ok row[4]? := by
  rw [dictOfRow_photo]
  simp [dictGet]

theorem dg_taken_at (row : List String) :
    dictGet (dictOfRow PHOTO_FIELDS row) "taken_at" = Except.ok row[5]? := by
  rw [dictOfRow_photo]
  simp [dictGet]

theorem dg_camera_data (row : List String) :
    dictGet (dictOfRow PHOTO_FIELDS row) "camera_data" = Except.ok row[6]? := by
  rw [dictOfRow_photo]
  simp [dictGet]

theorem dg_created_at (row : List String) :
    dictGet (dictOfRow PHOTO_FIELDS row) "created_at" = Except.ok row[7]? := by
  rw [dictOfRow_photo]
  simp [dictGet]

theorem exceptBindOk {ε α β : Type} (a : α) (f : α → Except ε β) :
    (Except.ok (ε := ε) a >>= f) = f a := rfl

theorem readPhotoRow_std {Cam : Type} (loads : String → Except Unit Cam) (blobs : Blobs)
    (row : List String) :
    readPhotoRow loads blobs PHOTO_FIELDS row =
      (match blobLookup blobs (pyStrOfCell row[0]?) with
      | none => Except.ok none
      | some bytes =>
        match camOfCell loads row[6]? with
        | Except.ok cd => Except.ok (some
            (⟨row[0]?, row[1]?, orNone row[2]?, orNone row[3]?, row[4]?, row[5]?, cd, row[7]?⟩,
              bytes))
        | Except.error e => Except.error e) := by
  unfold readPhotoRow
  simp only [dg_id, dg_filename, dg_world_id, dg_instance_id, dg_visibility, dg_taken_at,
    dg_camera_data, dg_created_at, exceptBindOk]
  cases blobLookup blobs (pyStrOfCell row[0]?) with
  | none => rfl
  | some bytes =>
    cases camOfCell loads row[6]? with
    | ok cd => rfl
    | error e => rfl

theorem rewriteRow_photoRow {Cam : Type} (dumps : Cam → String) (truthy : Cam → Bool)
    (a : PhotoArgs Cam) :
    rewriteRowChecked PHOTO_FIELDS (photoRow dumps truthy a) =
      Except.ok (photoRow dumps truthy a) := by
  unfold rewriteRowChecked
  rw [if_neg (by simp [photoRow, PHOTO_FIELDS])]
  unfold rewriteRow
  rw [dictOfRow_photo]
  simp [PHOTO_FIELDS, photoRow]

theorem dictOfRow_world (row : List String) :
    dictOfRow WORLD_FIELDS row =
      [("id", row[0]?), ("world_id", row[1]?), ("instance_id", row[2]?),
       ("vrc_user_id", row[3]?), ("vrc_display_name", row[4]?),
       ("created_at", row[5]?)] := by
  simp [dictOfRow, dictOfRowAux, assocSet, WORLD_FIELDS]

theorem dgw_id (row : List String) :
    dictGet (dictOfRow WORLD_FIELDS row) "id" = Except.ok row[0]? := by
  rw [dictOfRow_world]
  simp [dictGet]

theorem dgw_world_id (row : List String) :
    dictGet (dictOfRow WORLD_FIELDS row) "world_id" = Except.ok row[1]? := by
  rw [dictOfRow_world]
  simp [dictGet]

theorem dgw_instance_id (row : List String) :
    dictGet (dictOfRow WORLD_FIELDS row) "instance_id" = Except.ok row[2]? := by
  rw [dictOfRow_world]
  simp [dictGet]

theorem dgw_vrc_user_id (row : List String) :
    dictGet (dictOfRow WORLD_FIELDS row) "vrc_user_id" = Except.ok row[3]? := by
  rw [dictOfRow_world]
  simp [dictGet]

theorem dgw_vrc_display_name (row : List String) :
    dictGet (dictOfRow WORLD_FIELDS row) "vrc_display_name" = Except.ok row[4]? := by
  rw [dictOfRow_world]
  simp [dictGet]

theorem dgw_created_at (row : List String) :
    dictGet (dictOfRow WORLD_FIELDS row) "created_at" = Except.ok row[5]? := by
  rw [dictOfRow_world]
  simp [dictGet]

theorem readWorldRow_std (row : List String) :
    readWorldRow WORLD_FIELDS row =
      Except.ok ⟨row[0]?, row[1]?, row[2]?, row[3]?, row[4]?, row[5]?⟩ := by
  unfold readWorldRow
  simp only [dgw_id, dgw_world_id, dgw_instance_id, dgw_vrc_user_id,
    dgw_vrc_display_name, dgw_created_at, exceptBindOk]
  rfl

theorem getQueuedWorldRows_ok (rows : List (List String)) :
    ∃ l, getQueuedWorldRows WORLD_FIELDS rows = Except.ok l := by
  induction rows with
  | nil => exact ⟨[], rfl⟩
  | cons row rest ih =>
    obtain ⟨tl, htl⟩ := ih
    unfold getQueuedWorldRows
    by_cases he : row.isEmpty
    · rw [if_pos he]
      exact ⟨tl, htl⟩
    · rw [if_neg he]
      refine ⟨⟨row[0]?, row[1]?, row[2]?, row[3]?, row[4]?, row[5]?⟩ :: tl, ?_⟩
      simp only [readWorldRow_std, exceptBindOk, htl]
      rfl

theorem getQueuedPhotosRows_ok {Cam : Type} (loads : String → Except Unit Cam)
    (blobs : Blobs) (rows : List (List String))
    (hc : ∀ row ∈ rows, ∀ s, row[6]? = some s → s = "" ∨ ∃ v, loads s = Except.ok v) :
    ∃ l, getQueuedPhotosRows loads blobs PHOTO_FIELDS rows = Except.ok l := by
  induction rows with
  | nil => exact ⟨[], rfl⟩
  | cons row rest ih =>
    obtain ⟨tl, htl⟩ := ih (fun r hm s hs => hc r (List.mem_cons_of_mem row hm) s hs)
    have hrow := hc row (List.mem_cons_self row rest)
    unfold getQueuedPhotosRows
    by_cases he : row.isEmpty
    · rw [if_pos he]
      exact ⟨tl, htl⟩
    · rw [if_neg he]
      rw [readPhotoRow_std]
      cases hb : blobLookup blobs (pyStrOfCell row[0]?) with
      | none =>
        refine ⟨tl, ?_⟩
        simp only [exceptBindOk, htl]
        rfl
      | some bytes =>
        have hcam : ∃ cd, camOfCell loads row[6]? = Except.ok cd := by
          unfold camOfCell
          cases h6 : row[6]? with
          | none => exact ⟨none, rfl⟩
          | some s =>
            dsimp only
            by_cases hs : s = ""
            · rw [if_pos hs]
              exact ⟨none, rfl⟩
            · rw [if_neg hs]
              rcases hrow s h6 with h | ⟨v, hv⟩
              · exact absurd h hs
              · rw [hv]
                exact ⟨some v, rfl⟩
        obtain ⟨cd, hcd⟩ := hcam
        rw [hcd]
        refine ⟨(⟨row[0]?, row[1]?, orNone row[2]?, orNone row[3]?, row[4]?, row[5]?, cd,
          row[7]?⟩, bytes) :: tl, ?_⟩
        simp only [exceptBindOk, htl]
        rfl

end Store

/-- A concrete json decoder for the C8 counterexample, standing for
json.loads on the unit payload: it accepts exactly the encoder output J,
as json.loads accepts exactly well-formed JSON text. -/
def c8loads : String → Except Unit Unit :=
  fun s => if s = "J" then Except.ok () else Except.error ()

/-- C8 counterexample: the claim says the listing operations never
propagate an error on malformed ledger rows; but `get_queued_photos` and
`get_queued_world_joins` have no try/except around their row processing.
Under a ledger file whose header row is the single alien name foo with one
data row, the lookup of `row['id']` raises a KeyError that escapes to the
caller from both listings; and under a standard header, a blob-present row
whose serialized camera-data field holds the non-JSON text X makes
json.loads raise from `get_queued_photos` (the decoder is the concrete
`c8loads`). -/
theorem c8_counterexample :
    (@Store.get_queued_photos Unit (fun _ => Except.ok ())
        (some [["foo"], ["x"]]) [] = Except.error (Store.PyErr.keyError "id") ∧
     Store.get_queued_world_joins (some [["foo"], ["x"]]) =
       Except.error (Store.PyErr.keyError "id")) ∧
    Store.get_queued_photos c8loads
        (some [Store.PHOTO_FIELDS, ["a", "f.jpg", "", "", "self", "t", "X", "c"]])
        [("a", [1])] =
      Except.error Store.PyErr.jsonError :=
  ⟨⟨rfl, rfl⟩, rfl⟩

/-- C8 amended: listing never propagates an error as long as the ledger's
header row is the standard field list and, for photos, each data row's
camera-data field is absent, empty or parseable: `get_queued_world_joins`
then returns normally for arbitrary data rows (missing fields read as
None), and so does `get_queued_photos`; but a ledger whose header lacks a
required field makes either listing raise KeyError, and a non-empty
unparseable camera-data field makes the photo listing raise a parse error;
such errors propagate to the caller. -/
theorem c8_amended {Cam : Type} (loads : String → Except Unit Cam)
    (photoRows worldRows : List (List String)) (blobs : Store.Blobs)
    (hc : ∀ row ∈ photoRows, ∀ s, row[6]? = some s →
      s = "" ∨ ∃ v, loads s = Except.ok v) :
    (∃ l, Store.get_queued_photos loads (some (Store.PHOTO_FIELDS :: photoRows)) blobs =
      Except.ok l) ∧
    (∃ l, Store.get_queued_world_joins (some (Store.WORLD_FIELDS :: worldRows)) =
      Except.ok l) :=
  ⟨Store.getQueuedPhotosRows_ok loads blobs photoRows hc,
   Store.getQueuedWorldRows_ok worldRows⟩

/-- C8 witness: the amended theorem applied to concrete one-row ledgers
with short rows (every field but the first missing) and an empty blob
directory. -/
theorem c8_witness :
    (∃ l, @Store.get_queued_photos Unit (fun _ => Except.ok ())
      (some [Store.PHOTO_FIELDS, ["r"]]) [] = Except.ok l) ∧
    (∃ l, Store.get_queued_world_joins (some [Store.WORLD_FIELDS, ["r"]]) =
      Except.ok l) :=
  c8_amended (fun _ => Except.ok ()) [["r"]] [["r"]] []
    (by intro row hm s hs; simp at hm; subst hm; simp at hs)

namespace Store

/-- The store state corresponding to an abstract queue: an absent file for
the empty queue, otherwise the standard header followed by one row per
entry in enqueue order, and one blob per entry. -/
def storeOf {Cam : Type} (dumps : Cam → String) (truthy : Cam → Bool)
    (q : List (PhotoArgs Cam)) : StoreState :=
  { photosFile :=
      if q.isEmpty then none
      else some (PHOTO_FIELDS :: q.map (photoRow dumps truthy))
    blobs := q.map (fun a => (a.qid, a.bytes)) }

theorem blobs_any_eq_false {Cam : Type} (k : String) :
    ∀ q : List (PhotoArgs Cam), k ∉ q.map (fun x => x.qid) →
    (q.map (fun x => (x.qid, x.bytes))).any (fun kv => kv.1 == k) = false := by
  intro q
  induction q with
  | nil => intro _; rfl
  | cons b t ih =>
    intro h
    have hne : ¬(b.qid = k) := fun he => h (by simp [he])
    have ht : k ∉ t.map (fun x => x.qid) := fun hm => h (List.mem_cons_of_mem _ hm)
    simp [ih ht, hne]

theorem queue_photo_storeOf {Cam : Type} (dumps : Cam → String) (truthy : Cam → Bool)
    (a : PhotoArgs Cam) (q : List (PhotoArgs Cam))
    (h : a.qid ∉ q.map (fun x => x.qid)) :
    queue_photo dumps truthy a (storeOf dumps truthy q) =
      storeOf dumps truthy (q ++ [a]) := by
  unfold queue_photo storeOf blobWrite
  rw [blobs_any_eq_false a.qid q h]
  cases q with
  | nil => simp
  | cons b t => simp

theorem blobErase_map {Cam : Type} (qid : String) :
    ∀ q : List (PhotoArgs Cam),
    blobErase (q.map (fun a => (a.qid, a.bytes))) qid =
      (q.filter (fun x => x.qid != qid)).map (fun a => (a.qid, a.bytes)) := by
  intro q
  induction q with
  | nil => rfl
  | cons b t ih =>
    simp only [List.map_cons, blobErase, List.filter_cons]
    cases hb : (b.qid != qid) with
    | true => simp only [blobErase] at ih; simp [hb, ih]
    | false => simp only [blobErase] at ih; simp [hb, ih]

theorem photoRow_not_empty {Cam : Type} (dumps : Cam → String) (truthy : Cam → Bool)
    (a : PhotoArgs Cam) : (photoRow dumps truthy a).isEmpty = false := rfl

theorem dg_photoRow_id {Cam : Type} (dumps : Cam → String) (truthy : Cam → Bool)
    (a : PhotoArgs Cam) :
    dictGet (dictOfRow PHOTO_FIELDS (photoRow dumps truthy a)) "id" =
      Except.ok (some a.qid) := by
  rw [dg_id]
  rfl

theorem filterRows_map {Cam : Type} (dumps : Cam → String) (truthy : Cam → Bool)
    (qid : String) : ∀ q : List (PhotoArgs Cam),
    filterRows qid PHOTO_FIELDS (q.map (photoRow dumps truthy)) =
      Except.ok ((q.filter (fun x => x.qid != qid)).map (photoRow dumps truthy)) := by
  intro q
  induction q with
  | nil => rfl
  | cons a t ih =>
    simp only [List.map_cons]
    unfold filterRows
    simp only [photoRow_not_empty]
    rw [if_neg (by simp)]
    simp only [dg_photoRow_id, exceptBindOk, ih]
    have hcell : cellNeStr (some a.qid) qid = (a.qid != qid) := rfl
    simp only [exceptBindOk, hcell, List.filter_cons]
    cases hb : (a.qid != qid) with
    | true => simp; rfl
    | false => simp; rfl

theorem mapM_rewriteRow {Cam : Type} (dumps : Cam → String) (truthy : Cam → Bool) :
    ∀ q : List (PhotoArgs Cam),
    (q.map (photoRow dumps truthy)).mapM (rewriteRowChecked PHOTO_FIELDS) =
      Except.ok (q.map (photoRow dumps truthy)) := by
  intro q
  induction q with
  | nil => rfl
  | cons a t ih =>
    simp only [List.map_cons, List.mapM_cons, rewriteRow_photoRow, ih]
    rfl

theorem remove_photo_storeOf {Cam : Type} (dumps : Cam → String) (truthy : Cam → Bool)
    (qid : String) (q : List (PhotoArgs Cam)) :
    remove_photo qid (storeOf dumps truthy q) =
      Except.ok (storeOf dumps truthy (q.filter (fun x => x.qid != qid))) := by
  cases q with
  | nil => rfl
  | cons b t =>
    show remove_photo qid
      ⟨some (PHOTO_FIELDS :: (b :: t).map (photoRow dumps truthy)),
       (b :: t).map (fun a => (a.qid, a.bytes))⟩ = _
    unfold remove_photo
    simp only [filterRows_map, exceptBindOk]
    rw [blobErase_map]
    cases hf : (b :: t).filter (fun x => x.qid != qid) with
    | nil =>
      simp only [storeOf, List.map_nil, List.isEmpty_nil, if_pos]
      rfl
    | cons c u =>
      rw [if_neg (by simp)]
      have hm := mapM_rewriteRow dumps truthy (c :: u)
      simp only [hm, exceptBindOk]
      simp only [storeOf, List.isEmpty_cons]
      rw [if_neg (by simp)]
      rfl

end Store

namespace Store

theorem map_qid_filter {Cam : Type} (qid : String) :
    ∀ q : List (PhotoArgs Cam),
    (q.filter (fun x => x.qid != qid)).map (fun x => x.qid) =
      (q.map (fun x => x.qid)).filter (fun s => s != qid) := by
  intro q
  induction q with
  | nil => rfl
  | cons b t ih =>
    simp only [List.map_cons, List.filter_cons]
    cases hb : (b.qid != qid) with
    | true => simp [hb, ih]
    | false => simp [hb, ih]

theorem nodup_append_fresh {α : Type} [DecidableEq α] {l : List α} {x : α} {r : List α}
    (h : (l ++ x :: r).Nodup) : x ∉ l := by
  rcases List.nodup_append.mp h with ⟨_, _, hdisj⟩
  intro hmem
  exact hdisj hmem (List.mem_cons_self x r)

theorem nodup_append_shift {α : Type} [DecidableEq α] {l : List α} {x : α} {r : List α}
    (h : (l ++ x :: r).Nodup) : ((l ++ [x]) ++ r).Nodup := by
  simpa [List.append_assoc] using h

theorem nodup_append_filter {α : Type} [DecidableEq α] {l r : List α} (p : α → Bool)
    (h : (l ++ r).Nodup) : (l.filter p ++ r).Nodup :=
  List.Nodup.sublist (List.Sublist.append_right (List.filter_sublist l) r) h

theorem applyOps_storeOf {Cam : Type} (dumps : Cam → String) (truthy : Cam → Bool) :
    ∀ (ops : List (PhotoOp Cam)) (q : List (PhotoArgs Cam)),
    (q.map (fun x => x.qid) ++ enqueueIds ops).Nodup →
    applyOps dumps truthy ops (storeOf dumps truthy q) =
      Except.ok (storeOf dumps truthy (simQueue ops q)) := by
  intro ops
  induction ops with
  | nil => intro q _; rfl
  | cons op rest ih =>
    intro q h
    cases op with
    | enqueue a =>
      have hfresh : a.qid ∉ q.map (fun x => x.qid) :=
        nodup_append_fresh (by simpa [enqueueIds] using h)
      show applyOps dumps truthy rest
        (queue_photo dumps truthy a (storeOf dumps truthy q)) = _
      rw [queue_photo_storeOf dumps truthy a q hfresh]
      have h' : ((q ++ [a]).map (fun x => x.qid) ++ enqueueIds rest).Nodup := by
        rw [List.map_append]
        exact nodup_append_shift (by simpa [enqueueIds] using h)
      exact ih (q ++ [a]) h'
    | remove qid =>
      show (Except.bind (remove_photo qid (storeOf dumps truthy q))
        (fun st1 => applyOps dumps truthy rest st1)) = _
      rw [remove_photo_storeOf]
      have h' : ((q.filter (fun x => x.qid != qid)).map (fun x => x.qid) ++
          enqueueIds rest).Nodup := by
        rw [map_qid_filter]
        exact nodup_append_filter _ (by simpa [enqueueIds] using h)
      exact ih (q.filter (fun x => x.qid != qid)) h'

theorem simQueue_ids_nodup {Cam : Type} :
    ∀ (ops : List (PhotoOp Cam)) (q : List (PhotoArgs Cam)),
    (q.map (fun x => x.qid) ++ enqueueIds ops).Nodup →
    ((simQueue ops q).map (fun x => x.qid)).Nodup := by
  intro ops
  induction ops with
  | nil =>
    intro q h
    simpa [enqueueIds] using h
  | cons op rest ih =>
    intro q h
    cases op with
    | enqueue a =>
      have h' : ((q ++ [a]).map (fun x => x.qid) ++ enqueueIds rest).Nodup := by
        rw [List.map_append]
        exact nodup_append_shift (by simpa [enqueueIds] using h)
      exact ih (q ++ [a]) h'
    | remove qid =>
      have h' : ((q.filter (fun x => x.qid != qid)).map (fun x => x.qid) ++
          enqueueIds rest).Nodup := by
        rw [map_qid_filter]
        exact nodup_append_filter _ (by simpa [enqueueIds] using h)
      exact ih (q.filter (fun x => x.qid != qid)) h'

end Store

namespace Store

theorem blobLookup_not_mem (k : String) (p : String × Bytes → Bool) :
    ∀ l : Blobs, k ∉ l.map Prod.fst → blobLookup (l.filter p) k = none := by
  intro l
  induction l with
  | nil => intro _; rfl
  | cons kv rest ih =>
    intro h
    have hne : ¬(kv.1 = k) := fun he => h (by simp [he])
    have ht : k ∉ rest.map Prod.fst := fun hm => h (List.mem_cons_of_mem _ hm)
    simp only [List.filter_cons]
    cases hkv : p kv with
    | true =>
      simp only [hkv, if_pos]
      unfold blobLookup
      rw [List.find?_cons_of_neg _ (by simp [hne])]
      exact ih ht
    | false =>
      simp only [hkv, Bool.false_eq_true, if_neg, not_false_eq_true]
      exact ih ht

theorem blobLookup_filter {Cam : Type} (present : String → Bool) :
    ∀ q : List (PhotoArgs Cam), ((q.map (fun x => x.qid)).Nodup) →
    ∀ a ∈ q,
    blobLookup ((q.map (fun x => (x.qid, x.bytes))).filter (fun kv => present kv.1)) a.qid =
      if present a.qid then some a.bytes else none := by
  intro q
  induction q with
  | nil => intro _ a ha; exact absurd ha (List.not_mem_nil a)
  | cons b t ih =>
    intro hnd a ha
    rw [List.map_cons] at hnd
    have hbt : b.qid ∉ t.map (fun x => x.qid) := (List.nodup_cons.mp hnd).1
    have hndt : (t.map (fun x => x.qid)).Nodup := (List.nodup_cons.mp hnd).2
    rcases List.mem_cons.mp ha with rfl | hat
    · simp only [List.map_cons, List.filter_cons]
      cases hp : present a.qid with
      | true =>
        simp only [hp, if_pos]
        unfold blobLookup
        rw [List.find?_cons_of_pos _ (by simp)]
        rfl
      | false =>
        simp only [hp, Bool.false_eq_true, if_neg, not_false_eq_true]
        have hfst : (t.map (fun x => (x.qid, x.bytes))).map Prod.fst =
            t.map (fun x => x.qid) := by
          simp
        rw [blobLookup_not_mem _ _ _ (by rw [hfst]; exact hbt)]
    · have hne : a.qid ≠ b.qid := by
        intro he
        exact hbt (he ▸ List.mem_map_of_mem (fun x => x.qid) hat)
      simp only [List.map_cons, List.filter_cons]
      cases hp : present b.qid with
      | true =>
        simp only [hp, if_pos]
        unfold blobLookup
        rw [List.find?_cons_of_neg _ (by simp [hne.symm])]
        exact ih hndt a hat
      | false =>
        simp only [hp, Bool.false_eq_true, if_neg, not_false_eq_true]
        exact ih hndt a hat

end Store

namespace Store

theorem listing_storeOf {Cam : Type} (dumps : Cam → String) (truthy : Cam → Bool)
    (loads : String → Except Unit Cam) (present : String → Bool)
    (hrt : ∀ c, loads (dumps c) = Except.ok c) (hne : ∀ c, dumps c ≠ "") :
    ∀ (q : List (PhotoArgs Cam)) (B : Blobs),
    (∀ a ∈ q, blobLookup B a.qid = if present a.qid then some a.bytes else none) →
    getQueuedPhotosRows loads B PHOTO_FIELDS (q.map (photoRow dumps truthy)) =
      Except.ok ((q.filter (fun a => present a.qid)).map
        (fun a => (readBack truthy a, a.bytes))) := by
  intro q
  induction q with
  | nil => intro B _; rfl
  | cons a t ih =>
    intro B hB
    have hBt : ∀ x ∈ t, blobLookup B x.qid = if present x.qid then some x.bytes else none :=
      fun x hx => hB x (List.mem_cons_of_mem a hx)
    have hBa := hB a (List.mem_cons_self a t)
    have hrec := ih B hBt
    simp only [List.map_cons]
    unfold getQueuedPhotosRows
    simp only [photoRow_not_empty]
    rw [if_neg (by simp)]
    rw [readPhotoRow_std]
    have hstr : pyStrOfCell (photoRow dumps truthy a)[0]? = a.qid := rfl
    rw [hstr]
    cases hp : present a.qid with
    | false =>
      rw [hp] at hBa
      simp only [Bool.false_eq_true, if_neg, not_false_eq_true] at hBa
      rw [hBa]
      simp only [exceptBindOk, hrec, List.filter_cons, hp, Bool.false_eq_true,
        if_neg, not_false_eq_true]
      rfl
    | true =>
      rw [hp] at hBa
      simp only [if_pos] at hBa
      rw [hBa]
      have h6 : (photoRow dumps truthy a)[6]? =
          some (match a.camera_data with
                | some c => if truthy c then dumps c else ""
                | none => "") := rfl
      rw [h6]
      have hcam : camOfCell loads
          (some (match a.camera_data with
                | some c => if truthy c then dumps c else ""
                | none => "")) =
          Except.ok (match a.camera_data with
                     | some c => if truthy c then some c else none
                     | none => none) := by
        cases hcd : a.camera_data with
        | none => rfl
        | some c =>
          cases htr : truthy c with
          | false =>
            simp only [htr, Bool.false_eq_true, if_neg, not_false_eq_true]
            rfl
          | true =>
            simp only [htr, if_pos]
            show (if dumps c = "" then Except.ok none
              else match loads (dumps c) with
                   | Except.ok v => Except.ok (some v)
                   | Except.error _ => Except.error PyErr.jsonError) =
              Except.ok (some c)
            rw [if_neg (hne c), hrt c]
      rw [hcam]
      simp only [exceptBindOk, hrec, List.filter_cons, hp, if_pos]
      rfl

end Store

/-- Listing a store state in queue form returns the blob-present entries
in order: the bridge between the raw reader and the abstract queue. -/
theorem listing_on_storeOf {Cam : Type} (dumps : Cam → String) (truthy : Cam → Bool)
    (loads : String → Except Unit Cam) (present : String → Bool)
    (hrt : ∀ c, loads (dumps c) = Except.ok c) (hne : ∀ c, dumps c ≠ "") :
    ∀ q : List (Store.PhotoArgs Cam), (q.map (fun x => x.qid)).Nodup →
    Store.get_queued_photos loads (Store.storeOf dumps truthy q).photosFile
        ((Store.storeOf dumps truthy q).blobs.filter (fun kv => present kv.1)) =
      Except.ok ((q.filter (fun a => present a.qid)).map
        (fun a => (Store.readBack truthy a, a.bytes))) := by
  intro q hnd
  cases q with
  | nil => rfl
  | cons b t =>
    have hB : ∀ a ∈ b :: t, Store.blobLookup
        (((b :: t).map (fun x => (x.qid, x.bytes))).filter (fun kv => present kv.1)) a.qid =
        if present a.qid then some a.bytes else none :=
      fun a ha => Store.blobLookup_filter present (b :: t) hnd a ha
    have hmain := Store.listing_storeOf dumps truthy loads present hrt hne (b :: t)
      (((b :: t).map (fun x => (x.qid, x.bytes))).filter (fun kv => present kv.1)) hB
    exact hmain

/-- C7: for every sequence of enqueue/remove calls run from a fresh store
(with the fresh uuid4 ids modelled as pairwise distinct op-supplied ids)
and every set of surviving blob files (an arbitrary presence predicate
filtering the blob directory), `get_queued_photos` raises nothing and
returns exactly the currently-enqueued photos whose blob file is present,
in enqueue (FIFO) order, each read back with its exact bytes; a row whose
blob is absent is simply skipped: missing from the result, with no error.
The hypotheses on dumps/loads state the json round trip for dict payloads
(loads inverts dumps, and dumps never returns the empty string). -/
theorem c7_list_photos {Cam : Type} (dumps : Cam → String) (truthy : Cam → Bool)
    (loads : String → Except Unit Cam) (ops : List (Store.PhotoOp Cam))
    (present : String → Bool)
    (hrt : ∀ c, loads (dumps c) = Except.ok c) (hne : ∀ c, dumps c ≠ "")
    (hids : (Store.enqueueIds ops).Nodup) :
    ∃ st, Store.applyOps dumps truthy ops Store.emptyStore = Except.ok st ∧
      Store.get_queued_photos loads st.photosFile
          (st.blobs.filter (fun kv => present kv.1)) =
        Except.ok (((Store.simQueue ops []).filter (fun a => present a.qid)).map
          (fun a => (Store.readBack truthy a, a.bytes))) := by
  refine ⟨Store.storeOf dumps truthy (Store.simQueue ops []), ?_, ?_⟩
  · exact Store.applyOps_storeOf dumps truthy ops [] (by simpa using hids)
  · exact listing_on_storeOf dumps truthy loads present hrt hne
      (Store.simQueue ops [])
      (Store.simQueue_ids_nodup ops [] (by simpa using hids))

/-- A concrete json encoder for the unit payload, used by the C7 witness. -/
def c7dumps : Unit → String := fun _ => "J"

/-- A concrete json decoder inverting `c7dumps`, used by the C7 witness. -/
def c7loads : String → Except Unit Unit :=
  fun s => if s = "J" then Except.ok () else Except.error ()

/-- Concrete truthiness for the unit payload, used by the C7 witness. -/
def c7truthy : Unit → Bool := fun _ => true

/-- First concrete enqueue argument record of the C7 witness. -/
def c7args1 : Store.PhotoArgs Unit :=
  ⟨"a1", [1], "p1.jpg", none, none, "self", "t1", none, "c1"⟩

/-- Second concrete enqueue argument record of the C7 witness. -/
def c7args2 : Store.PhotoArgs Unit :=
  ⟨"a2", [2], "p2.jpg", some "wrld", none, "public", "t2", none, "c2"⟩

/-- The concrete op sequence of the C7 witness: two enqueues followed by
removal of the first. -/
def c7ops : List (Store.PhotoOp Unit) :=
  [Store.PhotoOp.enqueue c7args1, Store.PhotoOp.enqueue c7args2,
   Store.PhotoOp.remove "a1"]

/-- C7 witness: the theorem applied to the concrete op sequence with every
blob surviving. -/
theorem c7_witness :
    ∃ st, Store.applyOps c7dumps c7truthy c7ops Store.emptyStore = Except.ok st ∧
      Store.get_queued_photos c7loads st.photosFile
          (st.blobs.filter (fun kv => (fun _ : String => true) kv.1)) =
        Except.ok (((Store.simQueue c7ops []).filter
            (fun a => (fun _ : String => true) a.qid)).map
          (fun a => (Store.readBack c7truthy a, a.bytes))) :=
  c7_list_photos c7dumps c7truthy c7loads c7ops (fun _ => true)
    (fun _ => rfl) (by intro c; cases c; decide) (by decide)
